import Mathlib

/-!
Shallow embedding of `src/TorchNet/OpticalFlow.py` (PyTorch optical-flow
module): a reflection-padding adapter (`Pad67to68`), a coarse flow estimator
(`_CoarseFlow`), a fine flow estimator (`_FineFlow`), a bilinear warp
operator (`Warp`, built on `F.grid_sample`), and the composer (`FlowField`).

Tensors of rank 4 are modelled as a shape (n, c, h, w) together with a total
data function on natural-number indices; values outside the shape bounds are
junk and every statement about element values is made at in-range indices.
Scalar values are real numbers. Fallible tensor operations (which raise
shape errors in PyTorch) return `Option`.

Real-number arithmetic is noncomputable in Lean, so value-level definitions
live in a noncomputable section; all shape-level reasoning is over ℕ and
fully reduces.
-/

noncomputable section

/-- A rank-4 tensor in NCHW layout: batch, channel, height, width. -/
structure Tensor4 where
  n : ℕ
  c : ℕ
  h : ℕ
  w : ℕ
  data : ℕ → ℕ → ℕ → ℕ → ℝ

/-- A rank-4 tensor in NHWC layout, as produced by `permute([0, 2, 3, 1])`
and consumed by `grid_sample` as a sampling grid. -/
structure TensorNHWC where
  n : ℕ
  h : ℕ
  w : ℕ
  c : ℕ
  data : ℕ → ℕ → ℕ → ℕ → ℝ

/-- Embeds `torch.cat([a, b], dim=1)`: concatenation along the channel axis.
PyTorch requires all non-concatenated dimensions to agree. -/
def cat2 (a b : Tensor4) : Option Tensor4 :=
  if a.n = b.n ∧ a.h = b.h ∧ a.w = b.w then
    some ⟨a.n, a.c + b.c, a.h, a.w,
      fun i j k l => if j < a.c then a.data i j k l else b.data i (j - a.c) k l⟩
  else none

/-- Spatial output size of a 2-d convolution with kernel `k`, stride `s`
and symmetric padding `p` on an input of size `d` (dilation 1). -/
def convDim (d k s p : ℕ) : ℕ := (d + 2 * p - k) / s + 1

/-- Parameters of an `nn.Conv2d(inC, outC, k, stride, padding)` layer with a
square kernel: the weight tensor is indexed (out-channel, in-channel, kernel
row, kernel column) and the bias by out-channel. -/
structure Conv2d where
  inC : ℕ
  outC : ℕ
  k : ℕ
  stride : ℕ
  padding : ℕ
  weight : ℕ → ℕ → ℕ → ℕ → ℝ
  bias : ℕ → ℝ

/-- Value of the zero-padded input at (possibly out-of-range) padded
coordinates: `x` viewed with `padding` rows/columns of zeros on each side. -/
def padAt (x : Tensor4) (p : ℕ) (b ic r s : ℕ) : ℝ :=
  if p ≤ r ∧ r < x.h + p ∧ p ≤ s ∧ s < x.w + p then x.data b ic (r - p) (s - p) else 0

/-- Embeds applying an `nn.Conv2d` layer (cross-correlation plus bias, zero
padding). PyTorch raises when the input channel count differs from the
layer's expected channels or when the padded input is smaller than the
kernel; those cases return `none`. -/
def Conv2d.apply (cv : Conv2d) (x : Tensor4) : Option Tensor4 :=
  if x.c = cv.inC ∧ cv.k ≤ x.h + 2 * cv.padding ∧ cv.k ≤ x.w + 2 * cv.padding then
    some ⟨x.n, cv.outC, convDim x.h cv.k cv.stride cv.padding,
      convDim x.w cv.k cv.stride cv.padding,
      fun b o i j =>
        cv.bias o + ∑ ic ∈ Finset.range cv.inC, ∑ ki ∈ Finset.range cv.k,
          ∑ kj ∈ Finset.range cv.k,
            cv.weight o ic ki kj *
              padAt x cv.padding b ic (i * cv.stride + ki) (j * cv.stride + kj)⟩
  else none

/-- Embeds `F.relu`: elementwise `max 0`. -/
def reluT (x : Tensor4) : Tensor4 :=
  ⟨x.n, x.c, x.h, x.w, fun b o i j => max 0 (x.data b o i j)⟩

/-- Embeds `F.tanh`: elementwise hyperbolic tangent. -/
def tanhT (x : Tensor4) : Tensor4 :=
  ⟨x.n, x.c, x.h, x.w, fun b o i j => Real.tanh (x.data b o i j)⟩

/-- Embeds `nn.PixelShuffle(r)`: rearranges an (N, r²·Co, H, W) tensor into
(N, Co, r·H, r·W). PyTorch raises when the channel count is not divisible by
r²; that case returns `none`. -/
def pixelShuffle (r : ℕ) (x : Tensor4) : Option Tensor4 :=
  if 0 < r ∧ r * r ∣ x.c then
    some ⟨x.n, x.c / (r * r), r * x.h, r * x.w,
      fun b o i j => x.data b (o * (r * r) + (i % r) * r + j % r) (i / r) (j / r)⟩
  else none

/-- Embeds elementwise tensor addition `a + b`. The two operands in this
program always have identical shapes (PyTorch's size-1 broadcasting is never
exercised, since the composer's addends are built from the same frames);
mismatched shapes return `none` as PyTorch raises on non-broadcastable
shapes. -/
def addT (a b : Tensor4) : Option Tensor4 :=
  if a.n = b.n ∧ a.c = b.c ∧ a.h = b.h ∧ a.w = b.w then
    some ⟨a.n, a.c, a.h, a.w, fun i j k l => a.data i j k l + b.data i j k l⟩
  else none

/-- Embeds `Pad67to68.forward`, i.e. `nn.ReflectionPad2d((0, 0, 0, 1))`:
pads one row at the bottom by reflection about the last row, so the added
row is the second-to-last input row. PyTorch requires the padding size (1)
to be strictly less than the padded dimension, so inputs with fewer than
two rows raise; it also rejects inputs whose channel, height or width
dimension is empty. Those cases return `none`. -/
def pad67to68 (x : Tensor4) : Option Tensor4 :=
  if 0 < x.c ∧ 1 < x.h ∧ 0 < x.w then
    some ⟨x.n, x.c, x.h + 1, x.w,
      fun b o i j => if i = x.h then x.data b o (x.h - 2) j else x.data b o i j⟩
  else none

/-- Embeds `flow_field.permute([0, 2, 3, 1])`: moves the channel axis to the
trailing position, turning an NCHW tensor into an NHWC one. -/
def permute0231 (t : Tensor4) : TensorNHWC :=
  ⟨t.n, t.h, t.w, t.c, fun b i j k => t.data b k i j⟩

/-- Converts a normalized grid coordinate in [-1, 1] to an (unrounded) pixel
coordinate for a dimension of `size` pixels (grid_sample's convention with
align_corners = false: -1 and 1 map to the outer edges of the corner
pixels). -/
def unnormalize (coord : ℝ) (size : ℕ) : ℝ := ((coord + 1) * size - 1) / 2

/-- Pixel value at integer coordinates under the zeros padding mode:
out-of-range coordinates contribute 0. -/
def pixelZ (t : Tensor4) (b o : ℕ) (y x : ℤ) : ℝ :=
  if 0 ≤ y ∧ y < (t.h : ℤ) ∧ 0 ≤ x ∧ x < (t.w : ℤ) then t.data b o y.toNat x.toNat else 0

/-- Bilinear interpolation of tensor `t` (batch `b`, channel `o`) at the
normalized coordinates (xn, yn), as in `F.grid_sample` with bilinear mode
and zeros padding. -/
def bilinear (t : Tensor4) (b o : ℕ) (xn yn : ℝ) : ℝ :=
  let ix := unnormalize xn t.w
  let iy := unnormalize yn t.h
  let x0 : ℤ := ⌊ix⌋
  let y0 : ℤ := ⌊iy⌋
  let tx : ℝ := ix - x0
  let ty : ℝ := iy - y0
  (1 - ty) * ((1 - tx) * pixelZ t b o y0 x0 + tx * pixelZ t b o y0 (x0 + 1)) +
    ty * ((1 - tx) * pixelZ t b o (y0 + 1) x0 + tx * pixelZ t b o (y0 + 1) (x0 + 1))

/-- Embeds `F.grid_sample(frame, grid)` (bilinear, zeros padding): for each
output location the grid supplies a normalized (x, y) sampling coordinate in
its two trailing channels. PyTorch requires matching batch sizes, a trailing
grid dimension of exactly 2, and non-empty input spatial dimensions; other
cases return `none`. -/
def gridSample (frame : Tensor4) (grid : TensorNHWC) : Option Tensor4 :=
  if grid.n = frame.n ∧ grid.c = 2 ∧ 0 < frame.h ∧ 0 < frame.w then
    some ⟨frame.n, frame.c, grid.h, grid.w,
      fun b o i j => bilinear frame b o (grid.data b i j 0) (grid.data b i j 1)⟩
  else none

/-- Embeds `Warp.forward`: `F.grid_sample(frame_t, flow_field.permute([0, 2, 3, 1]))`. -/
def warp (frame flow : Tensor4) : Option Tensor4 :=
  gridSample frame (permute0231 flow)

/-- Learned parameters of `_CoarseFlow(input_channel)`: the constructor
argument together with the weight and bias of each of the five convolution
layers. The kernel sizes, strides, paddings and channel widths are fixed by
the architecture and appear in the layer definitions below. -/
structure CoarseFlow where
  channel : ℕ
  w1 : ℕ → ℕ → ℕ → ℕ → ℝ
  b1 : ℕ → ℝ
  w2 : ℕ → ℕ → ℕ → ℕ → ℝ
  b2 : ℕ → ℝ
  w3 : ℕ → ℕ → ℕ → ℕ → ℝ
  b3 : ℕ → ℝ
  w4 : ℕ → ℕ → ℕ → ℕ → ℝ
  b4 : ℕ → ℝ
  w5 : ℕ → ℕ → ℕ → ℕ → ℝ
  b5 : ℕ → ℝ

/-- Layer `nn.Conv2d(input_channel * 2, 24, 5, stride=2, padding=2)`. -/
def CoarseFlow.conv1 (net : CoarseFlow) : Conv2d := ⟨net.channel * 2, 24, 5, 2, 2, net.w1, net.b1⟩

/-- Layer `nn.Conv2d(24, 24, 3, stride=1, padding=1)`. -/
def CoarseFlow.conv2 (net : CoarseFlow) : Conv2d := ⟨24, 24, 3, 1, 1, net.w2, net.b2⟩

/-- Layer `nn.Conv2d(24, 24, 5, stride=2, padding=2)`. -/
def CoarseFlow.conv3 (net : CoarseFlow) : Conv2d := ⟨24, 24, 5, 2, 2, net.w3, net.b3⟩

/-- Layer `nn.Conv2d(24, 24, 3, stride=1, padding=1)`. -/
def CoarseFlow.conv4 (net : CoarseFlow) : Conv2d := ⟨24, 24, 3, 1, 1, net.w4, net.b4⟩

/-- Layer `nn.Conv2d(24, 32, 3, stride=1, padding=1)`. -/
def CoarseFlow.conv5 (net : CoarseFlow) : Conv2d := ⟨24, 32, 3, 1, 1, net.w5, net.b5⟩

/-- Embeds `_CoarseFlow.forward`: concatenate the two frames along the
channel axis, apply conv1..conv4 each followed by ReLU, conv5 followed by
tanh, then `nn.PixelShuffle(4)`. -/
def CoarseFlow.forward (net : CoarseFlow) (frame_t frame_tp1 : Tensor4) : Option Tensor4 := do
  let x ← cat2 frame_t frame_tp1
  let x ← net.conv1.apply x
  let x ← net.conv2.apply (reluT x)
  let x ← net.conv3.apply (reluT x)
  let x ← net.conv4.apply (reluT x)
  let x ← net.conv5.apply (reluT x)
  pixelShuffle 4 (tanhT x)

/-- Learned parameters of `_FineFlow(input_channel)`: the constructor
argument together with the weight and bias of each of the five convolution
layers. -/
structure FineFlow where
  channel : ℕ
  w1 : ℕ → ℕ → ℕ → ℕ → ℝ
  b1 : ℕ → ℝ
  w2 : ℕ → ℕ → ℕ → ℕ → ℝ
  b2 : ℕ → ℝ
  w3 : ℕ → ℕ → ℕ → ℕ → ℝ
  b3 : ℕ → ℝ
  w4 : ℕ → ℕ → ℕ → ℕ → ℝ
  b4 : ℕ → ℝ
  w5 : ℕ → ℕ → ℕ → ℕ → ℝ
  b5 : ℕ → ℝ

/-- Layer `nn.Conv2d(input_channel * 3 + 2, 24, 5, stride=2, padding=2)`. -/
def FineFlow.conv1 (net : FineFlow) : Conv2d := ⟨net.channel * 3 + 2, 24, 5, 2, 2, net.w1, net.b1⟩

/-- Layer `nn.Conv2d(24, 24, 3, stride=1, padding=1)`. -/
def FineFlow.conv2 (net : FineFlow) : Conv2d := ⟨24, 24, 3, 1, 1, net.w2, net.b2⟩

/-- Layer `nn.Conv2d(24, 24, 3, stride=1, padding=1)`. -/
def FineFlow.conv3 (net : FineFlow) : Conv2d := ⟨24, 24, 3, 1, 1, net.w3, net.b3⟩

/-- Layer `nn.Conv2d(24, 24, 3, stride=1, padding=1)`. -/
def FineFlow.conv4 (net : FineFlow) : Conv2d := ⟨24, 24, 3, 1, 1, net.w4, net.b4⟩

/-- Layer `nn.Conv2d(24, 8, 3, stride=1, padding=1)`. -/
def FineFlow.conv5 (net : FineFlow) : Conv2d := ⟨24, 8, 3, 1, 1, net.w5, net.b5⟩

/-- Embeds `_FineFlow.forward`: concatenate the two frames, the flow and
the warped coarse prediction along the channel axis (`torch.cat` on four
tensors, modelled as iterated two-tensor concatenation, which agrees with
it), apply conv1..conv4 each followed by ReLU, conv5 followed by tanh, then
`nn.PixelShuffle(2)`. -/
def FineFlow.forward (net : FineFlow) (frame_t frame_tp1 flow coarse_frame_tp1 : Tensor4) :
    Option Tensor4 := do
  let x ← cat2 frame_t frame_tp1
  let x ← cat2 x flow
  let x ← cat2 x coarse_frame_tp1
  let x ← net.conv1.apply x
  let x ← net.conv2.apply (reluT x)
  let x ← net.conv3.apply (reluT x)
  let x ← net.conv4.apply (reluT x)
  let x ← net.conv5.apply (reluT x)
  pixelShuffle 2 (tanhT x)

/-- Learned parameters of `FlowField`: its `_CoarseFlow()` and `_FineFlow()`
sub-networks, both constructed with the default `input_channel = 1`. The
`channel = 1` fields are enforced as propositional fields so a `FlowFieldNet`
can only be what `FlowField.__init__` builds. -/
structure FlowFieldNet where
  coarse_net : CoarseFlow
  fine_net : FineFlow
  coarse_default : coarse_net.channel = 1
  fine_default : fine_net.channel = 1

/-- Embeds `FlowField.forward`: coarse flow, then warp of the first frame by
the coarse flow, then the fine correction, then the residual sum
`fine + coarse_flow`. -/
def FlowFieldNet.forward (net : FlowFieldNet) (frame_t frame_tp1 : Tensor4) : Option Tensor4 := do
  let coarse_flow ← net.coarse_net.forward frame_t frame_tp1
  let coarse_frame_tp1 ← warp frame_t coarse_flow
  let fine ← net.fine_net.forward frame_t frame_tp1 coarse_flow coarse_frame_tp1
  addT fine coarse_flow

/-- All-zero tensor of a given shape, used as a concrete input for witnesses. -/
def zeroT (n c h w : ℕ) : Tensor4 := ⟨n, c, h, w, fun _ _ _ _ => 0⟩

/-- All-zero rank-4 weight function. -/
def zw4 : ℕ → ℕ → ℕ → ℕ → ℝ := fun _ _ _ _ => 0

/-- All-zero bias function. -/
def zw1 : ℕ → ℝ := fun _ => 0

/-- Coarse network with all-zero weights and the default single input channel. -/
def zeroCoarse : CoarseFlow := ⟨1, zw4, zw1, zw4, zw1, zw4, zw1, zw4, zw1, zw4, zw1⟩

/-- Fine network with all-zero weights and the default single input channel. -/
def zeroFine : FineFlow := ⟨1, zw4, zw1, zw4, zw1, zw4, zw1, zw4, zw1, zw4, zw1⟩

/-- Composer with all-zero weights, as built by `FlowField.__init__`. -/
def zeroNet : FlowFieldNet := ⟨zeroCoarse, zeroFine, rfl, rfl⟩

/-- Frame whose every element equals its row index, used as a concrete
counterexample input for the warp claims. -/
def rowIdxT (n c h w : ℕ) : Tensor4 := ⟨n, c, h, w, fun _ _ i _ => (i : ℝ)⟩

/-- Two-row single-column input with distinct row values 5 and 7, used to
exhibit which row reflection padding appends. -/
def twoRowT : Tensor4 := ⟨1, 1, 2, 1, fun _ _ i _ => if i = 0 then 5 else 7⟩

/-- Concrete output of the all-zero composer on 4×4 zero frames, extracted
with `getD` so closed statements can name it. -/
def composerOut : Tensor4 :=
  (zeroNet.forward (zeroT 1 1 4 4) (zeroT 1 1 4 4)).getD (zeroT 0 0 0 0)

/-- Concrete output of the all-zero coarse network on 4×4 zero frames. -/
def coarseOut : Tensor4 :=
  (zeroCoarse.forward (zeroT 1 1 4 4) (zeroT 1 1 4 4)).getD (zeroT 0 0 0 0)

/-- Concrete output of the all-zero fine network on 4×4 zero inputs. -/
def fineOut : Tensor4 :=
  (zeroFine.forward (zeroT 1 1 4 4) (zeroT 1 1 4 4) (zeroT 1 2 4 4) (zeroT 1 1 4 4)).getD
    (zeroT 0 0 0 0)

/-- Concrete output of the all-zero fine network on inputs of odd height 3,
whose spatial size the 2× pixel shuffle rounds up to 4. -/
def fineOddOut : Tensor4 :=
  (zeroFine.forward (zeroT 1 1 3 4) (zeroT 1 1 3 4) (zeroT 1 2 3 4) (zeroT 1 1 3 4)).getD
    (zeroT 0 0 0 0)

/-- Concrete output of the padding adapter on the two-row input. -/
def padOut : Tensor4 := (pad67to68 twoRowT).getD (zeroT 0 0 0 0)

/-- Concrete output of the warp of the row-index frame by an all-zero flow
field. -/
def warpOut : Tensor4 := (warp (rowIdxT 1 1 4 4) (zeroT 1 2 4 4)).getD (zeroT 0 0 0 0)

@[simp] theorem reluT_n (x : Tensor4) : (reluT x).n = x.n := rfl

@[simp] theorem reluT_c (x : Tensor4) : (reluT x).c = x.c := rfl

@[simp] theorem reluT_h (x : Tensor4) : (reluT x).h = x.h := rfl

@[simp] theorem reluT_w (x : Tensor4) : (reluT x).w = x.w := rfl

@[simp] theorem tanhT_n (x : Tensor4) : (tanhT x).n = x.n := rfl

@[simp] theorem tanhT_c (x : Tensor4) : (tanhT x).c = x.c := rfl

@[simp] theorem tanhT_h (x : Tensor4) : (tanhT x).h = x.h := rfl

@[simp] theorem tanhT_w (x : Tensor4) : (tanhT x).w = x.w := rfl

/-- Concatenation along channels succeeds on shape-compatible tensors and
adds the channel counts. -/
theorem cat2_shape {a b : Tensor4} (hn : a.n = b.n) (hh : a.h = b.h) (hw : a.w = b.w) :
    ∃ x, cat2 a b = some x ∧ x.n = a.n ∧ x.c = a.c + b.c ∧ x.h = a.h ∧ x.w = a.w := by
  have e : cat2 a b = some ⟨a.n, a.c + b.c, a.h, a.w,
      fun i j k l => if j < a.c then a.data i j k l else b.data i (j - a.c) k l⟩ := by
    simp [cat2, hn, hh, hw]
  exact ⟨_, e, rfl, rfl, rfl, rfl⟩

/-- A convolution layer succeeds when the channel count matches and the
padded input is at least as large as the kernel, and the output shape is
given by the standard convolution size formula. -/
theorem conv_apply_shape {c : Conv2d} {x : Tensor4} (hc : x.c = c.inC)
    (hh : c.k ≤ x.h + 2 * c.padding) (hw : c.k ≤ x.w + 2 * c.padding) :
    ∃ y, c.apply x = some y ∧ y.n = x.n ∧ y.c = c.outC ∧
      y.h = (x.h + 2 * c.padding - c.k) / c.stride + 1 ∧
      y.w = (x.w + 2 * c.padding - c.k) / c.stride + 1 := by
  have e : c.apply x = some ⟨x.n, c.outC, convDim x.h c.k c.stride c.padding,
      convDim x.w c.k c.stride c.padding,
      fun b o i j =>
        c.bias o + ∑ ic ∈ Finset.range c.inC, ∑ ki ∈ Finset.range c.k,
          ∑ kj ∈ Finset.range c.k,
            c.weight o ic ki kj *
              padAt x c.padding b ic (i * c.stride + ki) (j * c.stride + kj)⟩ := by
    simp [Conv2d.apply, hc, hh, hw]
  exact ⟨_, e, rfl, rfl, rfl, rfl⟩

/-- A convolution layer rejects an input whose channel count differs from
the layer's expected input channels. -/
theorem conv_apply_none {c : Conv2d} {x : Tensor4} (hc : x.c ≠ c.inC) :
    c.apply x = none := by
  simp [Conv2d.apply, hc]

/-- Pixel shuffle succeeds exactly on channel counts divisible by r², and is
shape-exact: (N, r²·Co, H, W) becomes (N, Co, rH, rW), every output element
being an element of the input. -/
theorem pixelShuffle_shape {r : ℕ} {x : Tensor4} (hr : 0 < r) (hd : r * r ∣ x.c) :
    ∃ y, pixelShuffle r x = some y ∧ y.n = x.n ∧ y.c = x.c / (r * r) ∧
      y.h = r * x.h ∧ y.w = r * x.w ∧
      ∀ b o i j, y.data b o i j = x.data b (o * (r * r) + (i % r) * r + j % r) (i / r) (j / r) := by
  have e : pixelShuffle r x = some ⟨x.n, x.c / (r * r), r * x.h, r * x.w,
      fun b o i j => x.data b (o * (r * r) + (i % r) * r + j % r) (i / r) (j / r)⟩ := by
    simp [pixelShuffle, hr, hd]
  exact ⟨_, e, rfl, rfl, rfl, rfl, fun _ _ _ _ => rfl⟩

/-- Elementwise addition of equally shaped tensors succeeds and sums the
entries. -/
theorem addT_shape {a b : Tensor4} (hn : a.n = b.n) (hc : a.c = b.c) (hh : a.h = b.h)
    (hw : a.w = b.w) :
    ∃ y, addT a b = some y ∧ y.n = a.n ∧ y.c = a.c ∧ y.h = a.h ∧ y.w = a.w ∧
      ∀ i j k l, y.data i j k l = a.data i j k l + b.data i j k l := by
  have e : addT a b = some ⟨a.n, a.c, a.h, a.w,
      fun i j k l => a.data i j k l + b.data i j k l⟩ := by
    simp [addT, hn, hc, hh, hw]
  exact ⟨_, e, rfl, rfl, rfl, rfl, fun _ _ _ _ => rfl⟩

/-- Inversion for elementwise addition: a successful addition has the first
operand's shape and sums the entries pointwise. -/
theorem addT_inv {a b y : Tensor4} (h : addT a b = some y) :
    y.n = a.n ∧ y.c = a.c ∧ y.h = a.h ∧ y.w = a.w ∧
      ∀ i j k l, y.data i j k l = a.data i j k l + b.data i j k l := by
  unfold addT at h
  split at h
  · cases h
    exact ⟨rfl, rfl, rfl, rfl, fun _ _ _ _ => rfl⟩
  · cases h

/-- The warp operator succeeds on a 2-channel flow with matching batch size
and a frame with non-empty spatial dimensions; the output has the frame's
batch/channel counts and the flow's spatial size, each element being the
bilinear sample of the frame at the flow's normalized coordinates. -/
theorem warp_shape {frame flow : Tensor4} (hn : flow.n = frame.n) (hc : flow.c = 2)
    (hh : 0 < frame.h) (hw : 0 < frame.w) :
    ∃ y, warp frame flow = some y ∧ y.n = frame.n ∧ y.c = frame.c ∧ y.h = flow.h ∧
      y.w = flow.w ∧
      ∀ b o i j, y.data b o i j = bilinear frame b o (flow.data b 0 i j) (flow.data b 1 i j) := by
  have e : warp frame flow = some ⟨frame.n, frame.c, flow.h, flow.w,
      fun b o i j => bilinear frame b o (flow.data b 0 i j) (flow.data b 1 i j)⟩ := by
    simp [warp, gridSample, permute0231, hn, hc, hh, hw]
  exact ⟨_, e, rfl, rfl, rfl, rfl, fun _ _ _ _ => rfl⟩

/-- Staged run of the coarse network: for frames of identical shape matching
the constructed input channel and with non-empty spatial dimensions, every
stage of `_CoarseFlow.forward` succeeds — channel concatenation, the five
convolutions with ReLU after the first four and tanh after the fifth, and
the final 4× pixel shuffle — and the result is a 2-channel tensor of
spatial size (4⌈H/4⌉, 4⌈W/4⌉). -/
theorem coarseForward_decomp (net : CoarseFlow) {f1 f2 : Tensor4}
    (hc1 : f1.c = net.channel) (hc2 : f2.c = net.channel)
    (hn : f1.n = f2.n) (hh : f1.h = f2.h) (hw : f1.w = f2.w)
    (hhp : 0 < f1.h) (hwp : 0 < f1.w) :
    ∃ x1 x2 x3 x4 x5 x6 y,
      cat2 f1 f2 = some x1 ∧
      net.conv1.apply x1 = some x2 ∧
      net.conv2.apply (reluT x2) = some x3 ∧
      net.conv3.apply (reluT x3) = some x4 ∧
      net.conv4.apply (reluT x4) = some x5 ∧
      net.conv5.apply (reluT x5) = some x6 ∧
      pixelShuffle 4 (tanhT x6) = some y ∧
      net.forward f1 f2 = some y ∧
      x1.n = f1.n ∧ x1.c = f1.c + f2.c ∧ x1.h = f1.h ∧ x1.w = f1.w ∧
      x6.c = 32 ∧
      y.n = f1.n ∧ y.c = 2 ∧ y.h = 4 * ((f1.h + 3) / 4) ∧ y.w = 4 * ((f1.w + 3) / 4) := by
  obtain ⟨x1, e1, h1n, h1c, h1h, h1w⟩ := cat2_shape hn hh hw
  obtain ⟨x2, e2, h2n, h2c, h2h, h2w⟩ := conv_apply_shape (c := net.conv1) (x := x1)
    (show x1.c = net.channel * 2 by omega)
    (show 5 ≤ x1.h + 2 * 2 by omega) (show 5 ≤ x1.w + 2 * 2 by omega)
  have h2c' : x2.c = 24 := h2c
  have h2h' : x2.h = (x1.h + 2 * 2 - 5) / 2 + 1 := h2h
  have h2w' : x2.w = (x1.w + 2 * 2 - 5) / 2 + 1 := h2w
  obtain ⟨x3, e3, h3n, h3c, h3h, h3w⟩ := conv_apply_shape (c := net.conv2) (x := reluT x2)
    (show (reluT x2).c = 24 by simp [h2c'])
    (show 3 ≤ (reluT x2).h + 2 * 1 by simp; omega)
    (show 3 ≤ (reluT x2).w + 2 * 1 by simp; omega)
  have h3c' : x3.c = 24 := h3c
  have h3h' : x3.h = (x2.h + 2 * 1 - 3) / 1 + 1 := h3h
  have h3w' : x3.w = (x2.w + 2 * 1 - 3) / 1 + 1 := h3w
  obtain ⟨x4, e4, h4n, h4c, h4h, h4w⟩ := conv_apply_shape (c := net.conv3) (x := reluT x3)
    (show (reluT x3).c = 24 by simp [h3c'])
    (show 5 ≤ (reluT x3).h + 2 * 2 by simp; omega)
    (show 5 ≤ (reluT x3).w + 2 * 2 by simp; omega)
  have h4c' : x4.c = 24 := h4c
  have h4h' : x4.h = (x3.h + 2 * 2 - 5) / 2 + 1 := h4h
  have h4w' : x4.w = (x3.w + 2 * 2 - 5) / 2 + 1 := h4w
  obtain ⟨x5, e5, h5n, h5c, h5h, h5w⟩ := conv_apply_shape (c := net.conv4) (x := reluT x4)
    (show (reluT x4).c = 24 by simp [h4c'])
    (show 3 ≤ (reluT x4).h + 2 * 1 by simp; omega)
    (show 3 ≤ (reluT x4).w + 2 * 1 by simp; omega)
  have h5c' : x5.c = 24 := h5c
  have h5h' : x5.h = (x4.h + 2 * 1 - 3) / 1 + 1 := h5h
  have h5w' : x5.w = (x4.w + 2 * 1 - 3) / 1 + 1 := h5w
  obtain ⟨x6, e6, h6n, h6c, h6h, h6w⟩ := conv_apply_shape (c := net.conv5) (x := reluT x5)
    (show (reluT x5).c = 24 by simp [h5c'])
    (show 3 ≤ (reluT x5).h + 2 * 1 by simp; omega)
    (show 3 ≤ (reluT x5).w + 2 * 1 by simp; omega)
  have h6c' : x6.c = 32 := h6c
  have h6h' : x6.h = (x5.h + 2 * 1 - 3) / 1 + 1 := h6h
  have h6w' : x6.w = (x5.w + 2 * 1 - 3) / 1 + 1 := h6w
  obtain ⟨y, e7, hyn, hyc, hyh, hyw, _⟩ := pixelShuffle_shape (r := 4) (x := tanhT x6)
    (by omega) (by simp only [tanhT_c, h6c']; decide)
  have h2n' : x2.n = x1.n := h2n
  have h3n' : x3.n = x2.n := h3n
  have h4n' : x4.n = x3.n := h4n
  have h5n' : x5.n = x4.n := h5n
  have h6n' : x6.n = x5.n := h6n
  have hyn' : y.n = x6.n := hyn
  have hyc' : y.c = x6.c / (4 * 4) := hyc
  have hyh' : y.h = 4 * x6.h := hyh
  have hyw' : y.w = 4 * x6.w := hyw
  refine ⟨x1, x2, x3, x4, x5, x6, y, e1, e2, e3, e4, e5, e6, e7, ?_, h1n, h1c, h1h, h1w,
    h6c', ?_, ?_, ?_, ?_⟩
  · simp only [CoarseFlow.forward, e1, e2, e3, e4, e5, e6, e7, Option.bind_eq_bind',
      Option.some_bind']
  · omega
  · omega
  · omega
  · omega
/-- Staged run of the fine network: for two frames, a 2-channel flow and a
warped frame, all of identical batch and spatial shape and with frame
channels matching the constructed input channel, every stage of
`_FineFlow.forward` succeeds — the four-way channel concatenation (3C + 2
channels), the five convolutions with ReLU after the first four and tanh
after the fifth, and the final 2× pixel shuffle — and the result is a
2-channel tensor of spatial size (2⌈H/2⌉, 2⌈W/2⌉). -/
theorem fineForward_decomp (net : FineFlow) {f1 f2 fl wp : Tensor4}
    (hc1 : f1.c = net.channel) (hc2 : f2.c = net.channel) (hcf : fl.c = 2)
    (hcw : wp.c = net.channel)
    (hn2 : f1.n = f2.n) (hn3 : f1.n = fl.n) (hn4 : f1.n = wp.n)
    (hh2 : f1.h = f2.h) (hh3 : f1.h = fl.h) (hh4 : f1.h = wp.h)
    (hw2 : f1.w = f2.w) (hw3 : f1.w = fl.w) (hw4 : f1.w = wp.w)
    (hhp : 0 < f1.h) (hwp : 0 < f1.w) :
    ∃ x1 x2 x3 x4 x5 x6 x7 x8 y,
      cat2 f1 f2 = some x1 ∧
      cat2 x1 fl = some x2 ∧
      cat2 x2 wp = some x3 ∧
      net.conv1.apply x3 = some x4 ∧
      net.conv2.apply (reluT x4) = some x5 ∧
      net.conv3.apply (reluT x5) = some x6 ∧
      net.conv4.apply (reluT x6) = some x7 ∧
      net.conv5.apply (reluT x7) = some x8 ∧
      pixelShuffle 2 (tanhT x8) = some y ∧
      net.forward f1 f2 fl wp = some y ∧
      x3.n = f1.n ∧ x3.c = 3 * net.channel + 2 ∧ x3.h = f1.h ∧ x3.w = f1.w ∧
      x8.c = 8 ∧
      y.n = f1.n ∧ y.c = 2 ∧ y.h = 2 * ((f1.h + 1) / 2) ∧ y.w = 2 * ((f1.w + 1) / 2) := by
  obtain ⟨x1, e1, h1n, h1c, h1h, h1w⟩ := cat2_shape hn2 hh2 hw2
  obtain ⟨x2, e2, h2n, h2c, h2h, h2w⟩ := cat2_shape (a := x1) (b := fl)
    (by omega) (by omega) (by omega)
  obtain ⟨x3, e3, h3n, h3c, h3h, h3w⟩ := cat2_shape (a := x2) (b := wp)
    (by omega) (by omega) (by omega)
  obtain ⟨x4, e4, h4n, h4c, h4h, h4w⟩ := conv_apply_shape (c := net.conv1) (x := x3)
    (show x3.c = net.channel * 3 + 2 by omega)
    (show 5 ≤ x3.h + 2 * 2 by omega) (show 5 ≤ x3.w + 2 * 2 by omega)
  have h4c' : x4.c = 24 := h4c
  have h4h' : x4.h = (x3.h + 2 * 2 - 5) / 2 + 1 := h4h
  have h4w' : x4.w = (x3.w + 2 * 2 - 5) / 2 + 1 := h4w
  obtain ⟨x5, e5, h5n, h5c, h5h, h5w⟩ := conv_apply_shape (c := net.conv2) (x := reluT x4)
    (show (reluT x4).c = 24 by simp [h4c'])
    (show 3 ≤ (reluT x4).h + 2 * 1 by simp; omega)
    (show 3 ≤ (reluT x4).w + 2 * 1 by simp; omega)
  have h5c' : x5.c = 24 := h5c
  have h5h' : x5.h = (x4.h + 2 * 1 - 3) / 1 + 1 := h5h
  have h5w' : x5.w = (x4.w + 2 * 1 - 3) / 1 + 1 := h5w
  obtain ⟨x6, e6, h6n, h6c, h6h, h6w⟩ := conv_apply_shape (c := net.conv3) (x := reluT x5)
    (show (reluT x5).c = 24 by simp [h5c'])
    (show 3 ≤ (reluT x5).h + 2 * 1 by simp; omega)
    (show 3 ≤ (reluT x5).w + 2 * 1 by simp; omega)
  have h6c' : x6.c = 24 := h6c
  have h6h' : x6.h = (x5.h + 2 * 1 - 3) / 1 + 1 := h6h
  have h6w' : x6.w = (x5.w + 2 * 1 - 3) / 1 + 1 := h6w
  obtain ⟨x7, e7, h7n, h7c, h7h, h7w⟩ := conv_apply_shape (c := net.conv4) (x := reluT x6)
    (show (reluT x6).c = 24 by simp [h6c'])
    (show 3 ≤ (reluT x6).h + 2 * 1 by simp; omega)
    (show 3 ≤ (reluT x6).w + 2 * 1 by simp; omega)
  have h7c' : x7.c = 24 := h7c
  have h7h' : x7.h = (x6.h + 2 * 1 - 3) / 1 + 1 := h7h
  have h7w' : x7.w = (x6.w + 2 * 1 - 3) / 1 + 1 := h7w
  obtain ⟨x8, e8, h8n, h8c, h8h, h8w⟩ := conv_apply_shape (c := net.conv5) (x := reluT x7)
    (show (reluT x7).c = 24 by simp [h7c'])
    (show 3 ≤ (reluT x7).h + 2 * 1 by simp; omega)
    (show 3 ≤ (reluT x7).w + 2 * 1 by simp; omega)
  have h8c' : x8.c = 8 := h8c
  have h8h' : x8.h = (x7.h + 2 * 1 - 3) / 1 + 1 := h8h
  have h8w' : x8.w = (x7.w + 2 * 1 - 3) / 1 + 1 := h8w
  obtain ⟨y, e9, hyn, hyc, hyh, hyw, _⟩ := pixelShuffle_shape (r := 2) (x := tanhT x8)
    (by omega) (by simp only [tanhT_c, h8c']; decide)
  have h4n' : x4.n = x3.n := h4n
  have h5n' : x5.n = x4.n := h5n
  have h6n' : x6.n = x5.n := h6n
  have h7n' : x7.n = x6.n := h7n
  have h8n' : x8.n = x7.n := h8n
  have hyn' : y.n = x8.n := hyn
  have hyc' : y.c = x8.c / (2 * 2) := hyc
  have hyh' : y.h = 2 * x8.h := hyh
  have hyw' : y.w = 2 * x8.w := hyw
  refine ⟨x1, x2, x3, x4, x5, x6, x7, x8, y, e1, e2, e3, e4, e5, e6, e7, e8, e9, ?_,
    by omega, by omega, by omega, by omega, h8c', ?_, ?_, ?_, ?_⟩
  · simp only [FineFlow.forward, e1, e2, e3, e4, e5, e6, e7, e8, e9, Option.bind_eq_bind',
      Option.some_bind']
  · omega
  · omega
  · omega
  · omega

/-- Inversion for pixel shuffle: when it succeeds, every output element is
the corresponding rearranged input element. -/
theorem pixelShuffle_inv {r : ℕ} {x y : Tensor4} (h : pixelShuffle r x = some y) :
    ∀ b o i j, y.data b o i j = x.data b (o * (r * r) + (i % r) * r + j % r) (i / r) (j / r) := by
  unfold pixelShuffle at h
  split at h
  · cases h
    exact fun _ _ _ _ => rfl
  · cases h

/-- Inversion for the coarse network: a successful forward pass ends with a
4× pixel shuffle of a tanh-activated tensor. -/
theorem coarseForward_inv (net : CoarseFlow) {f1 f2 y : Tensor4}
    (h : net.forward f1 f2 = some y) :
    ∃ x, pixelShuffle 4 (tanhT x) = some y := by
  unfold CoarseFlow.forward at h
  simp only [Option.bind_eq_bind'] at h
  obtain ⟨x1, -, h⟩ := Option.bind_eq_some'.mp h
  obtain ⟨x2, -, h⟩ := Option.bind_eq_some'.mp h
  obtain ⟨x3, -, h⟩ := Option.bind_eq_some'.mp h
  obtain ⟨x4, -, h⟩ := Option.bind_eq_some'.mp h
  obtain ⟨x5, -, h⟩ := Option.bind_eq_some'.mp h
  obtain ⟨x6, -, h⟩ := Option.bind_eq_some'.mp h
  exact ⟨x6, h⟩

/-- Inversion for the fine network: a successful forward pass ends with a
2× pixel shuffle of a tanh-activated tensor. -/
theorem fineForward_inv (net : FineFlow) {f1 f2 fl wp y : Tensor4}
    (h : net.forward f1 f2 fl wp = some y) :
    ∃ x, pixelShuffle 2 (tanhT x) = some y := by
  unfold FineFlow.forward at h
  simp only [Option.bind_eq_bind'] at h
  obtain ⟨x1, -, h⟩ := Option.bind_eq_some'.mp h
  obtain ⟨x2, -, h⟩ := Option.bind_eq_some'.mp h
  obtain ⟨x3, -, h⟩ := Option.bind_eq_some'.mp h
  obtain ⟨x4, -, h⟩ := Option.bind_eq_some'.mp h
  obtain ⟨x5, -, h⟩ := Option.bind_eq_some'.mp h
  obtain ⟨x6, -, h⟩ := Option.bind_eq_some'.mp h
  obtain ⟨x7, -, h⟩ := Option.bind_eq_some'.mp h
  obtain ⟨x8, -, h⟩ := Option.bind_eq_some'.mp h
  exact ⟨x8, h⟩

/-- Inversion for the composer: a successful forward pass factors into the
coarse estimate, the warp of the first frame by it, the fine correction,
and the final elementwise sum. -/
theorem flowFieldForward_inv (net : FlowFieldNet) {f1 f2 out : Tensor4}
    (h : net.forward f1 f2 = some out) :
    ∃ cf wp fine, net.coarse_net.forward f1 f2 = some cf ∧ warp f1 cf = some wp ∧
      net.fine_net.forward f1 f2 cf wp = some fine ∧ addT fine cf = some out := by
  unfold FlowFieldNet.forward at h
  simp only [Option.bind_eq_bind'] at h
  obtain ⟨cf, hcf, h⟩ := Option.bind_eq_some'.mp h
  obtain ⟨wp, hwp, h⟩ := Option.bind_eq_some'.mp h
  obtain ⟨fine, hfine, h⟩ := Option.bind_eq_some'.mp h
  exact ⟨cf, wp, fine, hcf, hwp, hfine, h⟩

/-- The composer succeeds on single-channel frames of identical shape whose
spatial dimensions are positive multiples of 4, producing a 2-channel
output at the input's batch and spatial size. -/
theorem flowFieldForward_shape (net : FlowFieldNet) {f1 f2 : Tensor4}
    (hc1 : f1.c = 1) (hc2 : f2.c = 1) (hn : f1.n = f2.n) (hh : f1.h = f2.h) (hw : f1.w = f2.w)
    (hh4 : 4 ∣ f1.h) (hw4 : 4 ∣ f1.w) (hhp : 0 < f1.h) (hwp : 0 < f1.w) :
    ∃ y, net.forward f1 f2 = some y ∧ y.n = f1.n ∧ y.c = 2 ∧ y.h = f1.h ∧ y.w = f1.w := by
  have hcd := net.coarse_default
  have hfd := net.fine_default
  obtain ⟨_, _, _, _, _, _, cf, -, -, -, -, -, -, -, ecf, -, -, -, -, -, cfn, cfc, cfh, cfw⟩ :=
    @coarseForward_decomp net.coarse_net f1 f2
      (by omega) (by omega) hn hh hw hhp hwp
  have cfh' : cf.h = f1.h := by omega
  have cfw' : cf.w = f1.w := by omega
  obtain ⟨wp, ewp, wpn, wpc, wph, wpw, -⟩ := @warp_shape f1 cf
    (by omega) cfc hhp hwp
  obtain ⟨_, _, _, _, _, _, _, _, fine, -, -, -, -, -, -, -, -, -, efine, -, -, -, -, -,
      finen, finec, fineh, finew⟩ :=
    @fineForward_decomp net.fine_net f1 f2 cf wp
      (by omega) (by omega) cfc (by omega) hn (by omega) (by omega)
      hh (by omega) (by omega) hw (by omega) (by omega) hhp hwp
  obtain ⟨y, ey, yn, yc, yh, yw, -⟩ := addT_shape (a := fine) (b := cf)
    (by omega) (by omega) (by omega) (by omega)
  refine ⟨y, ?_, by omega, by omega, by omega, by omega⟩
  simp only [FlowFieldNet.forward, ecf, ewp, efine, ey, Option.bind_eq_bind',
    Option.some_bind']

/-- The real hyperbolic tangent is at most 1. -/
theorem tanhR_le_one (x : ℝ) : Real.tanh x ≤ 1 := by
  rw [Real.tanh_eq_sinh_div_cosh]
  exact le_of_lt ((div_lt_one (Real.cosh_pos x)).mpr (Real.sinh_lt_cosh x))

/-- The real hyperbolic tangent is at least -1. -/
theorem neg_one_le_tanhR (x : ℝ) : -1 ≤ Real.tanh x := by
  have h := tanhR_le_one (-x)
  rw [Real.tanh_neg] at h
  linarith

/-- C1: for every pair of input frames on which the composer's forward pass
succeeds, it computes exactly the sequence coarse flow, warp of the first
frame by the coarse flow, fine correction from the two frames, the coarse
flow and the warped approximation, and finally output = fine correction +
coarse flow as an exact elementwise sum. -/
theorem C1_composer_residual_sequence (net : FlowFieldNet) (f1 f2 out : Tensor4)
    (h : net.forward f1 f2 = some out) :
    ∃ coarse_flow coarse_frame fine,
      net.coarse_net.forward f1 f2 = some coarse_flow ∧
      warp f1 coarse_flow = some coarse_frame ∧
      net.fine_net.forward f1 f2 coarse_flow coarse_frame = some fine ∧
      addT fine coarse_flow = some out ∧
      ∀ i j k l, out.data i j k l = fine.data i j k l + coarse_flow.data i j k l := by
  obtain ⟨cf, wp, fine, hcf, hwp, hfine, hadd⟩ := flowFieldForward_inv net h
  obtain ⟨-, -, -, -, hdata⟩ := addT_inv hadd
  exact ⟨cf, wp, fine, hcf, hwp, hfine, hadd, hdata⟩

/-- C1 witness: the residual decomposition evaluated on the all-zero
composer applied to concrete 4×4 zero frames. -/
theorem C1_composer_residual_sequence_witness :
    ∃ coarse_flow coarse_frame fine,
      zeroNet.coarse_net.forward (zeroT 1 1 4 4) (zeroT 1 1 4 4) = some coarse_flow ∧
      warp (zeroT 1 1 4 4) coarse_flow = some coarse_frame ∧
      zeroNet.fine_net.forward (zeroT 1 1 4 4) (zeroT 1 1 4 4) coarse_flow coarse_frame =
        some fine ∧
      addT fine coarse_flow = some composerOut ∧
      ∀ i j k l, composerOut.data i j k l = fine.data i j k l + coarse_flow.data i j k l :=
  C1_composer_residual_sequence zeroNet (zeroT 1 1 4 4) (zeroT 1 1 4 4) composerOut rfl

/-- C2 counterexample: the claim fails as stated — for the same-shaped
frame pairs of shape (1,1,3,3) (height and width not multiples of 4) and
(1,2,4,4) (two channels) the composer's forward pass fails instead of
returning a tensor of shape (N,2,H,W). -/
theorem C2_composer_shape_counterexample :
    zeroNet.forward (zeroT 1 1 3 3) (zeroT 1 1 3 3) = none ∧
    zeroNet.forward (zeroT 1 2 4 4) (zeroT 1 2 4 4) = none :=
  ⟨rfl, rfl⟩

/-- C2 (amended): for every pair of same-shaped single-channel frames of
shape (N,1,H,W) with H and W positive multiples of 4, the composer's
forward pass succeeds and returns a tensor of shape (N,2,H,W). -/
theorem C2_composer_output_shape (net : FlowFieldNet) (f1 f2 : Tensor4)
    (hc1 : f1.c = 1) (hc2 : f2.c = 1) (hn : f1.n = f2.n) (hh : f1.h = f2.h) (hw : f1.w = f2.w)
    (hh4 : 4 ∣ f1.h) (hw4 : 4 ∣ f1.w) (hhp : 0 < f1.h) (hwp : 0 < f1.w) :
    ∃ y, net.forward f1 f2 = some y ∧ y.n = f1.n ∧ y.c = 2 ∧ y.h = f1.h ∧ y.w = f1.w :=
  flowFieldForward_shape net hc1 hc2 hn hh hw hh4 hw4 hhp hwp

/-- C2 witness: the amended shape statement evaluated on the all-zero
composer applied to concrete 4×4 zero frames. -/
theorem C2_composer_output_shape_witness :
    ∃ y, zeroNet.forward (zeroT 1 1 4 4) (zeroT 1 1 4 4) = some y ∧
      y.n = 1 ∧ y.c = 2 ∧ y.h = 4 ∧ y.w = 4 :=
  C2_composer_output_shape zeroNet (zeroT 1 1 4 4) (zeroT 1 1 4 4) rfl rfl rfl rfl rfl
    (by decide) (by decide) (by decide) (by decide)

/-- C3 counterexample: the claim fails as stated — a one-row input (shape
(1,1,1,2)) is rejected by the reflection padding rather than padded, and on
the two-row input with rows 5, 7 the appended row equals the second-to-last
row (value 5), not the last row (value 7). -/
theorem C3_pad_counterexample :
    pad67to68 (zeroT 1 1 1 2) = none ∧
    pad67to68 twoRowT = some padOut ∧
    padOut.data 0 0 2 0 = 5 ∧ twoRowT.data 0 0 1 0 = 7 ∧ padOut.data 0 0 2 0 ≠ twoRowT.data 0 0 1 0 := by
  refine ⟨rfl, rfl, rfl, rfl, ?_⟩
  have h5 : padOut.data 0 0 2 0 = 5 := rfl
  have h7 : twoRowT.data 0 0 1 0 = 7 := rfl
  rw [h5, h7]
  norm_num

/-- C3 (amended): for every input tensor with at least two rows (and
non-empty channel and width dimensions), the padding adapter returns a
tensor of shape (N,C,H+1,W) whose first H rows equal the input unchanged
and whose added bottom row is the reflection of the rows across the last
row, i.e. the second-to-last input row; the adapter is a pure function of
its input. -/
theorem C3_pad_reflect (t : Tensor4) (hc : 0 < t.c) (hh : 2 ≤ t.h) (hw : 0 < t.w) :
    ∃ y, pad67to68 t = some y ∧ y.n = t.n ∧ y.c = t.c ∧ y.h = t.h + 1 ∧ y.w = t.w ∧
      (∀ b o i j, i < t.h → y.data b o i j = t.data b o i j) ∧
      (∀ b o j, y.data b o t.h j = t.data b o (t.h - 2) j) := by
  have e : pad67to68 t = some ⟨t.n, t.c, t.h + 1, t.w,
      fun b o i j => if i = t.h then t.data b o (t.h - 2) j else t.data b o i j⟩ := by
    simp only [pad67to68, if_pos (show 0 < t.c ∧ 1 < t.h ∧ 0 < t.w by omega)]
  exact ⟨_, e, rfl, rfl, rfl, rfl,
    fun b o i j hi => if_neg (by omega),
    fun b o j => if_pos rfl⟩

/-- C3 witness: the amended padding statement evaluated on a concrete
three-row input. -/
theorem C3_pad_reflect_witness :
    ∃ y, pad67to68 (rowIdxT 1 1 3 2) = some y ∧ y.n = 1 ∧ y.c = 1 ∧ y.h = 4 ∧ y.w = 2 ∧
      (∀ b o i j, i < 3 → y.data b o i j = (rowIdxT 1 1 3 2).data b o i j) ∧
      (∀ b o j, y.data b o 3 j = (rowIdxT 1 1 3 2).data b o 1 j) :=
  C3_pad_reflect (rowIdxT 1 1 3 2) (by decide) (by decide) (by decide)

/-- C9 counterexample: the claim fails as stated — an input with exactly
one row (shape (2,3,1,5)) makes the padding adapter's forward pass fail,
so having at least one row is not a sufficient precondition. -/
theorem C9_pad_counterexample : pad67to68 (zeroT 2 3 1 5) = none := rfl

/-- C9 (amended): the padding adapter's forward pass succeeds on every
input with at least two rows and non-empty channel and width dimensions;
reflection padding by one row requires the height to exceed the padding
size, so one row is not enough. -/
theorem C9_pad_succeeds (t : Tensor4) (hc : 0 < t.c) (hh : 2 ≤ t.h) (hw : 0 < t.w) :
    (pad67to68 t).isSome = true := by
  rw [pad67to68, if_pos (show 0 < t.c ∧ 1 < t.h ∧ 0 < t.w by omega)]
  rfl

/-- C9 witness: the amended success statement evaluated on a concrete
two-row input. -/
theorem C9_pad_succeeds_witness : (pad67to68 (zeroT 1 1 2 1)).isSome = true :=
  C9_pad_succeeds (zeroT 1 1 2 1) (by decide) (by decide) (by decide)

/-- C4: for every pair of frames of identical shape matching the
constructed input channel (with non-empty spatial dimensions), the coarse
estimator concatenates them into a 2C-channel tensor, applies five
convolutions with kernel/stride pairs (5/2, 3/1, 5/2, 3/1, 3/1) and output
widths (24,24,24,24,32), ReLU after the first four and tanh after the
fifth, then a pixel shuffle of factor 4 — which is shape-exact on any
(N, r²·Co, H', W') tensor — producing a 2-channel flow field near the input
resolution (within 3 of H and W, exactly 4⌈H/4⌉ × 4⌈W/4⌉). -/
theorem C4_coarse_architecture (net : CoarseFlow) (f1 f2 : Tensor4)
    (hc1 : f1.c = net.channel) (hc2 : f2.c = net.channel)
    (hn : f1.n = f2.n) (hh : f1.h = f2.h) (hw : f1.w = f2.w)
    (hhp : 0 < f1.h) (hwp : 0 < f1.w) :
    (net.conv1.k = 5 ∧ net.conv1.stride = 2 ∧ net.conv1.outC = 24) ∧
    (net.conv2.k = 3 ∧ net.conv2.stride = 1 ∧ net.conv2.outC = 24) ∧
    (net.conv3.k = 5 ∧ net.conv3.stride = 2 ∧ net.conv3.outC = 24) ∧
    (net.conv4.k = 3 ∧ net.conv4.stride = 1 ∧ net.conv4.outC = 24) ∧
    (net.conv5.k = 3 ∧ net.conv5.stride = 1 ∧ net.conv5.outC = 32) ∧
    (∀ (t : Tensor4) (r co : ℕ), 0 < r → t.c = r * r * co →
      ∃ u, pixelShuffle r t = some u ∧ u.n = t.n ∧ u.c = co ∧
        u.h = r * t.h ∧ u.w = r * t.w) ∧
    ∃ x1 x2 x3 x4 x5 x6 y,
      cat2 f1 f2 = some x1 ∧
      x1.n = f1.n ∧ x1.c = 2 * net.channel ∧ x1.h = f1.h ∧ x1.w = f1.w ∧
      net.conv1.apply x1 = some x2 ∧
      net.conv2.apply (reluT x2) = some x3 ∧
      net.conv3.apply (reluT x3) = some x4 ∧
      net.conv4.apply (reluT x4) = some x5 ∧
      net.conv5.apply (reluT x5) = some x6 ∧
      pixelShuffle 4 (tanhT x6) = some y ∧
      net.forward f1 f2 = some y ∧
      y.n = f1.n ∧ y.c = 2 ∧
      y.h = 4 * ((f1.h + 3) / 4) ∧ y.w = 4 * ((f1.w + 3) / 4) ∧
      f1.h ≤ y.h ∧ y.h ≤ f1.h + 3 ∧ f1.w ≤ y.w ∧ y.w ≤ f1.w + 3 := by
  refine ⟨⟨rfl, rfl, rfl⟩, ⟨rfl, rfl, rfl⟩, ⟨rfl, rfl, rfl⟩, ⟨rfl, rfl, rfl⟩,
    ⟨rfl, rfl, rfl⟩, ?_, ?_⟩
  · intro t r co hr hco
    obtain ⟨u, e, un, uc, uh, uw, -⟩ := pixelShuffle_shape hr ⟨co, hco⟩
    refine ⟨u, e, un, ?_, uh, uw⟩
    rw [uc, hco, Nat.mul_div_cancel_left co (Nat.mul_pos hr hr)]
  · obtain ⟨x1, x2, x3, x4, x5, x6, y, e1, e2, e3, e4, e5, e6, e7, efwd,
      h1n, h1c, h1h, h1w, h6c, hyn, hyc, hyh, hyw⟩ :=
      coarseForward_decomp net hc1 hc2 hn hh hw hhp hwp
    exact ⟨x1, x2, x3, x4, x5, x6, y, e1, h1n, by omega, h1h, h1w, e2, e3, e4, e5, e6, e7,
      efwd, hyn, hyc, hyh, hyw, by omega, by omega, by omega, by omega⟩

/-- C4 witness: the coarse architecture statement evaluated on the all-zero
coarse network applied to concrete 4×4 zero frames. -/
theorem C4_coarse_architecture_witness :
    (zeroCoarse.conv1.k = 5 ∧ zeroCoarse.conv1.stride = 2 ∧ zeroCoarse.conv1.outC = 24) ∧
    (zeroCoarse.conv2.k = 3 ∧ zeroCoarse.conv2.stride = 1 ∧ zeroCoarse.conv2.outC = 24) ∧
    (zeroCoarse.conv3.k = 5 ∧ zeroCoarse.conv3.stride = 2 ∧ zeroCoarse.conv3.outC = 24) ∧
    (zeroCoarse.conv4.k = 3 ∧ zeroCoarse.conv4.stride = 1 ∧ zeroCoarse.conv4.outC = 24) ∧
    (zeroCoarse.conv5.k = 3 ∧ zeroCoarse.conv5.stride = 1 ∧ zeroCoarse.conv5.outC = 32) ∧
    (∀ (t : Tensor4) (r co : ℕ), 0 < r → t.c = r * r * co →
      ∃ u, pixelShuffle r t = some u ∧ u.n = t.n ∧ u.c = co ∧
        u.h = r * t.h ∧ u.w = r * t.w) ∧
    ∃ x1 x2 x3 x4 x5 x6 y,
      cat2 (zeroT 1 1 4 4) (zeroT 1 1 4 4) = some x1 ∧
      x1.n = 1 ∧ x1.c = 2 ∧ x1.h = 4 ∧ x1.w = 4 ∧
      zeroCoarse.conv1.apply x1 = some x2 ∧
      zeroCoarse.conv2.apply (reluT x2) = some x3 ∧
      zeroCoarse.conv3.apply (reluT x3) = some x4 ∧
      zeroCoarse.conv4.apply (reluT x4) = some x5 ∧
      zeroCoarse.conv5.apply (reluT x5) = some x6 ∧
      pixelShuffle 4 (tanhT x6) = some y ∧
      zeroCoarse.forward (zeroT 1 1 4 4) (zeroT 1 1 4 4) = some y ∧
      y.n = 1 ∧ y.c = 2 ∧ y.h = 4 ∧ y.w = 4 ∧
      4 ≤ y.h ∧ y.h ≤ 7 ∧ 4 ≤ y.w ∧ y.w ≤ 7 :=
  C4_coarse_architecture zeroCoarse (zeroT 1 1 4 4) (zeroT 1 1 4 4) rfl rfl rfl rfl rfl
    (by decide) (by decide)

/-- C5 counterexample: the claim fails as stated — on a valid input
quadruple of height 3 (frames (1,1,3,4), flow (1,2,3,4), warped frame
(1,1,3,4)) the fine estimator succeeds but its output height is 4, not the
input height 3, so the correction is not at input resolution. -/
theorem C5_fine_resolution_counterexample :
    zeroFine.forward (zeroT 1 1 3 4) (zeroT 1 1 3 4) (zeroT 1 2 3 4) (zeroT 1 1 3 4) =
      some fineOddOut ∧
    fineOddOut.h = 4 ∧ (zeroT 1 1 3 4).h = 3 ∧ fineOddOut.h ≠ (zeroT 1 1 3 4).h :=
  ⟨rfl, rfl, rfl, by decide⟩

/-- C5 (amended): for every valid input quadruple (two frames matching the
constructed channel count, a 2-channel flow field, and a warped frame, all
of identical batch and spatial shape with non-empty spatial dimensions),
the fine estimator concatenates all four into a (3C+2)-channel tensor,
applies five convolutions with kernel/stride pairs (5/2, 3/1, 3/1, 3/1,
3/1) and output widths (24,24,24,24,8), ReLU after the first four and tanh
after the fifth, then a pixel shuffle of factor 2, producing a 2-channel
flow correction of spatial size 2⌈H/2⌉ × 2⌈W/2⌉ — equal to the input
resolution exactly when H and W are even. -/
theorem C5_fine_architecture (net : FineFlow) (f1 f2 fl wp : Tensor4)
    (hc1 : f1.c = net.channel) (hc2 : f2.c = net.channel) (hcf : fl.c = 2)
    (hcw : wp.c = net.channel)
    (hn2 : f1.n = f2.n) (hn3 : f1.n = fl.n) (hn4 : f1.n = wp.n)
    (hh2 : f1.h = f2.h) (hh3 : f1.h = fl.h) (hh4 : f1.h = wp.h)
    (hw2 : f1.w = f2.w) (hw3 : f1.w = fl.w) (hw4 : f1.w = wp.w)
    (hhp : 0 < f1.h) (hwp : 0 < f1.w) :
    (net.conv1.k = 5 ∧ net.conv1.stride = 2 ∧ net.conv1.outC = 24) ∧
    (net.conv2.k = 3 ∧ net.conv2.stride = 1 ∧ net.conv2.outC = 24) ∧
    (net.conv3.k = 3 ∧ net.conv3.stride = 1 ∧ net.conv3.outC = 24) ∧
    (net.conv4.k = 3 ∧ net.conv4.stride = 1 ∧ net.conv4.outC = 24) ∧
    (net.conv5.k = 3 ∧ net.conv5.stride = 1 ∧ net.conv5.outC = 8) ∧
    ∃ x1 x2 x3 x4 x5 x6 x7 x8 y,
      cat2 f1 f2 = some x1 ∧
      cat2 x1 fl = some x2 ∧
      cat2 x2 wp = some x3 ∧
      x3.n = f1.n ∧ x3.c = 3 * net.channel + 2 ∧ x3.h = f1.h ∧ x3.w = f1.w ∧
      net.conv1.apply x3 = some x4 ∧
      net.conv2.apply (reluT x4) = some x5 ∧
      net.conv3.apply (reluT x5) = some x6 ∧
      net.conv4.apply (reluT x6) = some x7 ∧
      net.conv5.apply (reluT x7) = some x8 ∧
      pixelShuffle 2 (tanhT x8) = some y ∧
      net.forward f1 f2 fl wp = some y ∧
      y.n = f1.n ∧ y.c = 2 ∧
      y.h = 2 * ((f1.h + 1) / 2) ∧ y.w = 2 * ((f1.w + 1) / 2) ∧
      (2 ∣ f1.h → y.h = f1.h) ∧ (2 ∣ f1.w → y.w = f1.w) := by
  refine ⟨⟨rfl, rfl, rfl⟩, ⟨rfl, rfl, rfl⟩, ⟨rfl, rfl, rfl⟩, ⟨rfl, rfl, rfl⟩,
    ⟨rfl, rfl, rfl⟩, ?_⟩
  obtain ⟨x1, x2, x3, x4, x5, x6, x7, x8, y, e1, e2, e3, e4, e5, e6, e7, e8, e9, efwd,
      h3n, h3c, h3h, h3w, h8c, hyn, hyc, hyh, hyw⟩ :=
    fineForward_decomp net hc1 hc2 hcf hcw hn2 hn3 hn4 hh2 hh3 hh4 hw2 hw3 hw4 hhp hwp
  exact ⟨x1, x2, x3, x4, x5, x6, x7, x8, y, e1, e2, e3, h3n, h3c, h3h, h3w, e4, e5, e6, e7,
    e8, e9, efwd, hyn, hyc, hyh, hyw, fun hd => by omega, fun hd => by omega⟩

/-- C5 witness: the amended fine architecture statement evaluated on the
all-zero fine network applied to concrete 4×4 zero inputs. -/
theorem C5_fine_architecture_witness :
    (zeroFine.conv1.k = 5 ∧ zeroFine.conv1.stride = 2 ∧ zeroFine.conv1.outC = 24) ∧
    (zeroFine.conv2.k = 3 ∧ zeroFine.conv2.stride = 1 ∧ zeroFine.conv2.outC = 24) ∧
    (zeroFine.conv3.k = 3 ∧ zeroFine.conv3.stride = 1 ∧ zeroFine.conv3.outC = 24) ∧
    (zeroFine.conv4.k = 3 ∧ zeroFine.conv4.stride = 1 ∧ zeroFine.conv4.outC = 24) ∧
    (zeroFine.conv5.k = 3 ∧ zeroFine.conv5.stride = 1 ∧ zeroFine.conv5.outC = 8) ∧
    ∃ x1 x2 x3 x4 x5 x6 x7 x8 y,
      cat2 (zeroT 1 1 4 4) (zeroT 1 1 4 4) = some x1 ∧
      cat2 x1 (zeroT 1 2 4 4) = some x2 ∧
      cat2 x2 (zeroT 1 1 4 4) = some x3 ∧
      x3.n = 1 ∧ x3.c = 5 ∧ x3.h = 4 ∧ x3.w = 4 ∧
      zeroFine.conv1.apply x3 = some x4 ∧
      zeroFine.conv2.apply (reluT x4) = some x5 ∧
      zeroFine.conv3.apply (reluT x5) = some x6 ∧
      zeroFine.conv4.apply (reluT x6) = some x7 ∧
      zeroFine.conv5.apply (reluT x7) = some x8 ∧
      pixelShuffle 2 (tanhT x8) = some y ∧
      zeroFine.forward (zeroT 1 1 4 4) (zeroT 1 1 4 4) (zeroT 1 2 4 4) (zeroT 1 1 4 4) =
        some y ∧
      y.n = 1 ∧ y.c = 2 ∧ y.h = 4 ∧ y.w = 4 ∧
      (2 ∣ (4:ℕ) → y.h = 4) ∧ (2 ∣ (4:ℕ) → y.w = 4) :=
  C5_fine_architecture zeroFine (zeroT 1 1 4 4) (zeroT 1 1 4 4) (zeroT 1 2 4 4)
    (zeroT 1 1 4 4) rfl rfl rfl rfl rfl rfl rfl rfl rfl rfl rfl rfl rfl
    (by decide) (by decide)

/-- C6: every element of a tanh-activated tensor lies in [-1,1]; since each
estimator's forward pass ends by pixel-shuffling such a tensor (a pure
rearrangement), every element of a successful coarse or fine estimator
output lies in [-1,1]. -/
theorem C6_tanh_bound :
    (∀ (x : Tensor4) (b o i j : ℕ),
      -1 ≤ (tanhT x).data b o i j ∧ (tanhT x).data b o i j ≤ 1) ∧
    (∀ (net : CoarseFlow) (f1 f2 y : Tensor4), net.forward f1 f2 = some y →
      ∀ b o i j, -1 ≤ y.data b o i j ∧ y.data b o i j ≤ 1) ∧
    (∀ (net : FineFlow) (f1 f2 fl wp y : Tensor4), net.forward f1 f2 fl wp = some y →
      ∀ b o i j, -1 ≤ y.data b o i j ∧ y.data b o i j ≤ 1) := by
  have hb : ∀ (x : Tensor4) (b o i j : ℕ),
      -1 ≤ (tanhT x).data b o i j ∧ (tanhT x).data b o i j ≤ 1 :=
    fun x b o i j => ⟨neg_one_le_tanhR _, tanhR_le_one _⟩
  refine ⟨hb, ?_, ?_⟩
  · intro net f1 f2 y h b o i j
    obtain ⟨x, hx⟩ := coarseForward_inv net h
    rw [pixelShuffle_inv hx b o i j]
    exact hb x _ _ _ _
  · intro net f1 f2 fl wp y h b o i j
    obtain ⟨x, hx⟩ := fineForward_inv net h
    rw [pixelShuffle_inv hx b o i j]
    exact hb x _ _ _ _

/-- C6 witness: the tanh bound evaluated on a concrete tensor and on the
concrete outputs of the all-zero coarse and fine networks. -/
theorem C6_tanh_bound_witness :
    (-1 ≤ (tanhT (zeroT 1 1 1 1)).data 0 0 0 0 ∧ (tanhT (zeroT 1 1 1 1)).data 0 0 0 0 ≤ 1) ∧
    (-1 ≤ coarseOut.data 0 0 0 0 ∧ coarseOut.data 0 0 0 0 ≤ 1) ∧
    (-1 ≤ fineOut.data 0 0 0 0 ∧ fineOut.data 0 0 0 0 ≤ 1) :=
  ⟨C6_tanh_bound.1 (zeroT 1 1 1 1) 0 0 0 0,
   C6_tanh_bound.2.1 zeroCoarse (zeroT 1 1 4 4) (zeroT 1 1 4 4) coarseOut rfl 0 0 0 0,
   C6_tanh_bound.2.2 zeroFine (zeroT 1 1 4 4) (zeroT 1 1 4 4) (zeroT 1 2 4 4)
     (zeroT 1 1 4 4) fineOut rfl 0 0 0 0⟩

/-- C7: for every frame with non-empty spatial dimensions and 2-channel
flow field of the same batch and spatial size, the warp operator permutes
the flow's channel axis to the trailing position, resamples the frame at
those normalized coordinates by bilinear interpolation, and returns a
warped frame of the same shape as the input frame. -/
theorem C7_warp_contract (frame flow : Tensor4)
    (hn : flow.n = frame.n) (hc : flow.c = 2) (hh : flow.h = frame.h) (hw : flow.w = frame.w)
    (hhp : 0 < frame.h) (hwp : 0 < frame.w) :
    warp frame flow = gridSample frame (permute0231 flow) ∧
    (permute0231 flow).n = flow.n ∧ (permute0231 flow).h = flow.h ∧
    (permute0231 flow).w = flow.w ∧ (permute0231 flow).c = flow.c ∧
    (∀ b i j k, (permute0231 flow).data b i j k = flow.data b k i j) ∧
    ∃ y, warp frame flow = some y ∧ y.n = frame.n ∧ y.c = frame.c ∧ y.h = frame.h ∧
      y.w = frame.w ∧
      ∀ b o i j, y.data b o i j = bilinear frame b o (flow.data b 0 i j) (flow.data b 1 i j) := by
  refine ⟨rfl, rfl, rfl, rfl, rfl, fun _ _ _ _ => rfl, ?_⟩
  obtain ⟨y, e, yn, yc, yh, yw, hd⟩ := warp_shape hn hc hhp hwp
  exact ⟨y, e, yn, yc, by omega, by omega, hd⟩

/-- C7 witness: the warp contract evaluated on the concrete row-index frame
and the all-zero flow field. -/
theorem C7_warp_contract_witness :
    warp (rowIdxT 1 1 4 4) (zeroT 1 2 4 4) =
      gridSample (rowIdxT 1 1 4 4) (permute0231 (zeroT 1 2 4 4)) ∧
    (permute0231 (zeroT 1 2 4 4)).n = 1 ∧ (permute0231 (zeroT 1 2 4 4)).h = 4 ∧
    (permute0231 (zeroT 1 2 4 4)).w = 4 ∧ (permute0231 (zeroT 1 2 4 4)).c = 2 ∧
    (∀ b i j k, (permute0231 (zeroT 1 2 4 4)).data b i j k = (zeroT 1 2 4 4).data b k i j) ∧
    ∃ y, warp (rowIdxT 1 1 4 4) (zeroT 1 2 4 4) = some y ∧
      y.n = 1 ∧ y.c = 1 ∧ y.h = 4 ∧ y.w = 4 ∧
      ∀ b o i j, y.data b o i j =
        bilinear (rowIdxT 1 1 4 4) b o ((zeroT 1 2 4 4).data b 0 i j)
          ((zeroT 1 2 4 4).data b 1 i j) :=
  C7_warp_contract (rowIdxT 1 1 4 4) (zeroT 1 2 4 4) rfl rfl rfl rfl (by decide) (by decide)

/-- C10: the composer is built with single-channel coarse and fine
sub-networks, and on every pair of same-shaped frames whose channel count
is not 1, the concatenation's channel count mismatches the first coarse
convolution's expected input channels, that convolution fails, and the
whole forward pass fails. -/
theorem C10_composer_rejects_multichannel (net : FlowFieldNet) (f1 f2 : Tensor4)
    (hc : f1.c = f2.c) (hne : f1.c ≠ 1)
    (hn : f1.n = f2.n) (hh : f1.h = f2.h) (hw : f1.w = f2.w) :
    net.coarse_net.channel = 1 ∧ net.fine_net.channel = 1 ∧
    (∃ x1, cat2 f1 f2 = some x1 ∧ x1.c ≠ net.coarse_net.conv1.inC ∧
      net.coarse_net.conv1.apply x1 = none) ∧
    net.forward f1 f2 = none := by
  have hcd := net.coarse_default
  obtain ⟨x1, e1, h1n, h1c, h1h, h1w⟩ := cat2_shape hn hh hw
  have hmis : x1.c ≠ net.coarse_net.conv1.inC := by
    show x1.c ≠ net.coarse_net.channel * 2
    omega
  have e2 : net.coarse_net.conv1.apply x1 = none := conv_apply_none hmis
  have ec : net.coarse_net.forward f1 f2 = none := by
    simp only [CoarseFlow.forward, e1, e2, Option.bind_eq_bind', Option.some_bind',
      Option.none_bind']
  refine ⟨hcd, net.fine_default, ⟨x1, e1, hmis, e2⟩, ?_⟩
  simp only [FlowFieldNet.forward, ec, Option.bind_eq_bind', Option.none_bind']

/-- C10 witness: the rejection evaluated on the all-zero composer applied
to concrete two-channel frames. -/
theorem C10_composer_rejects_multichannel_witness :
    zeroNet.coarse_net.channel = 1 ∧ zeroNet.fine_net.channel = 1 ∧
    (∃ x1, cat2 (zeroT 1 2 4 4) (zeroT 1 2 4 4) = some x1 ∧
      x1.c ≠ zeroNet.coarse_net.conv1.inC ∧
      zeroNet.coarse_net.conv1.apply x1 = none) ∧
    zeroNet.forward (zeroT 1 2 4 4) (zeroT 1 2 4 4) = none :=
  C10_composer_rejects_multichannel zeroNet (zeroT 1 2 4 4) (zeroT 1 2 4 4) rfl
    (by decide) rfl rfl rfl

/-- C8 counterexample: the claim fails as stated — warping the concrete
4×4 row-index frame by an all-zero flow field yields, at the interior
location (1,1) (where the bilinear sample touches only in-range pixels, so
no boundary effect is involved), the value 3/2 instead of the frame's value
1: the zero flow field is an absolute sampling grid aimed at the image
center, not an identity displacement. -/
theorem C8_warp_identity_counterexample :
    warp (rowIdxT 1 1 4 4) (zeroT 1 2 4 4) = some warpOut ∧
    warpOut.data 0 0 1 1 = 3 / 2 ∧
    (rowIdxT 1 1 4 4).data 0 0 1 1 = 1 ∧
    warpOut.data 0 0 1 1 ≠ (rowIdxT 1 1 4 4).data 0 0 1 1 := by
  have hb : warpOut.data 0 0 1 1 = bilinear (rowIdxT 1 1 4 4) 0 0 0 0 := rfl
  have hval : bilinear (rowIdxT 1 1 4 4) 0 0 0 0 = 3 / 2 := by
    have hun : unnormalize 0 4 = 3 / 2 := by
      unfold unnormalize
      norm_num
    have hfl : ⌊(3 / 2 : ℝ)⌋ = 1 := by
      rw [Int.floor_eq_iff]
      constructor
      · norm_num
      · norm_num
    simp only [bilinear, rowIdxT, hun, hfl]
    simp only [pixelZ, rowIdxT]
    simp only [show Int.toNat (1 + 1) = 2 from rfl]
    norm_num
  have hin : (rowIdxT 1 1 4 4).data 0 0 1 1 = 1 := by
    simp [rowIdxT]
  refine ⟨rfl, hb.trans hval, hin, ?_⟩
  rw [hb.trans hval, hin]
  norm_num

/-- C8 (amended): warping any frame with non-empty spatial dimensions by an
all-zero flow field of matching batch size does not approximate the
identity; instead every output location receives the bilinear sample of the
frame at the normalized coordinate (0,0) — the image center — so the output
is spatially constant within each batch and channel. -/
theorem C8_warp_zero_flow (frame flow : Tensor4)
    (hn : flow.n = frame.n) (hc : flow.c = 2) (hhp : 0 < frame.h) (hwp : 0 < frame.w)
    (hz : ∀ b k i j, flow.data b k i j = 0) :
    ∃ y, warp frame flow = some y ∧
      (∀ b o i j, y.data b o i j = bilinear frame b o 0 0) ∧
      (∀ b o i j i' j', y.data b o i j = y.data b o i' j') := by
  obtain ⟨y, e, -, -, -, -, hd⟩ := warp_shape hn hc hhp hwp
  refine ⟨y, e, fun b o i j => ?_, fun b o i j i' j' => ?_⟩
  · rw [hd b o i j, hz, hz]
  · rw [hd b o i j, hd b o i' j', hz, hz, hz, hz]

/-- C8 witness: the amended zero-flow statement evaluated on the concrete
row-index frame and the all-zero flow field. -/
theorem C8_warp_zero_flow_witness :
    ∃ y, warp (rowIdxT 2 3 4 5) (zeroT 2 2 4 5) = some y ∧
      (∀ b o i j, y.data b o i j = bilinear (rowIdxT 2 3 4 5) b o 0 0) ∧
      (∀ b o i j i' j', y.data b o i j = y.data b o i' j') :=
  C8_warp_zero_flow (rowIdxT 2 3 4 5) (zeroT 2 2 4 5) rfl rfl (by decide) (by decide)
    (fun _ _ _ _ => rfl)
